import Mathlib

/-!
Verification development for the KeynesianBeautyContest repository.

The Python sources under `src/` are shallowly embedded below:

* `models/moves.py` — the `Move` value object and its `clamp_guess` validator;
* `models/records.py` — the `TurnRecord` snapshot object;
* `game/referees.py` — `Referee.parse_response`, `Referee.repair_response`,
  `Referee.do_turn_for_player` and `Referee.handle_turn`;
* `game/arenas.py` — `Arena.process_turn_outcome` and `Arena.handle_game_over`.

Python floats are modelled as exact rationals (`ℚ`); all arithmetic in the
claims below stays inside small decimal fractions, where float and rational
arithmetic agree.  The Python standard-library calls `json.loads` and
`ast.literal_eval` are modelled by a single recursive-descent parser over the
structured-literal grammar actually exercised by move responses (objects,
arrays, quoted strings with backslash escapes, decimal numbers, and the
boolean/null constants), parameterised by the three features that distinguish
the two calls: single-quoted strings, trailing commas, and the spelling of
the constants.
-/

set_option maxRecDepth 4000

namespace KeynesianBeautyContest

/-- Left curly brace, written via its code point. -/
def lbrace : Char := Char.ofNat 123

/-- Right curly brace, written via its code point. -/
def rbrace : Char := Char.ofNat 125

/-- Left square bracket. -/
def lbrack : Char := '['

/-- Right square bracket. -/
def rbrack : Char := ']'

/-- ASCII double quote. -/
def dquote : Char := '"'

/-- ASCII single quote (apostrophe), written via its code point. -/
def squote : Char := Char.ofNat 39

/-- Unicode left double quotation mark, one of the "smart" quotes
normalised by `parse_response`'s cosmetic-repair step. -/
def smartLD : Char := Char.ofNat 8220

/-- Unicode right double quotation mark. -/
def smartRD : Char := Char.ofNat 8221

/-- Unicode left single quotation mark. -/
def smartLS : Char := Char.ofNat 8216

/-- Unicode right single quotation mark. -/
def smartRS : Char := Char.ofNat 8217

/-- Values produced by decoding a move response: the common value domain of
`json.loads` and `ast.literal_eval` as used in `Referee.parse_response`. -/
inductive PyVal : Type where
  | str : String → PyVal
  | num : ℚ → PyVal
  | bool : Bool → PyVal
  | null : PyVal
  | list : List PyVal → PyVal
  | dict : List (String × PyVal) → PyVal

/-- Configuration distinguishing the strict JSON decoder from the permissive
Python-literal decoder. -/
structure ParseCfg where
  singleQuotes : Bool
  trailingComma : Bool
  pythonConsts : Bool

/-- Whitespace characters accepted between JSON tokens. -/
def isWs (c : Char) : Bool :=
  c = ' ' || c = Char.ofNat 9 || c = Char.ofNat 10 || c = Char.ofNat 13

/-- Drop leading whitespace. -/
def skipWs : List Char → List Char
  | [] => []
  | c :: cs => if isWs c then skipWs cs else c :: cs

/-- Parse the body of a quoted string (the opening quote has been consumed)
up to the closing quote `q`, handling backslash escapes. -/
def parseStringBody (q : Char) : Nat → List Char → Option (String × List Char)
  | 0, _ => none
  | _, [] => none
  | fuel + 1, c :: cs =>
    if c = q then some ("", cs)
    else if c = '\\' then
      match cs with
      | [] => none
      | e :: cs2 =>
        let ch := if e = 'n' then Char.ofNat 10
          else if e = 't' then Char.ofNat 9
          else if e = 'r' then Char.ofNat 13
          else e
        match parseStringBody q fuel cs2 with
        | some (s, rest) => some (String.singleton ch ++ s, rest)
        | none => none
    else
      match parseStringBody q fuel cs with
      | some (s, rest) => some (String.singleton c ++ s, rest)
      | none => none

/-- Numeric value of a decimal digit character. -/
def digitVal (c : Char) : Nat := c.toNat - 48

/-- Split a leading run of decimal digits from the input. -/
def takeDigits : List Char → List Char × List Char
  | [] => ([], [])
  | c :: cs =>
    if c.isDigit then
      let p := takeDigits cs
      (c :: p.1, p.2)
    else ([], c :: cs)

/-- Interpret a digit run as a natural number. -/
def digitsToNat (ds : List Char) : Nat :=
  ds.foldl (fun acc c => acc * 10 + digitVal c) 0

/-- Parse a decimal number (optional sign, integer part, optional fractional
part) into an exact rational. -/
def parseNumber (cs : List Char) : Option (ℚ × List Char) :=
  let p0 : Bool × List Char :=
    match cs with
    | c :: rest => if c = '-' then (true, rest) else (false, cs)
    | [] => (false, [])
  let ints := takeDigits p0.2
  if ints.1.isEmpty then none
  else
    let ipart : ℚ := (digitsToNat ints.1 : ℚ)
    let vp : ℚ × List Char :=
      match ints.2 with
      | c :: cs3 =>
        if c = '.' then
          let fs := takeDigits cs3
          (ipart + (digitsToNat fs.1 : ℚ) / ((10 : ℚ) ^ fs.1.length), fs.2)
        else (ipart, ints.2)
      | [] => (ipart, ints.2)
    some ((if p0.1 then -vp.1 else vp.1), vp.2)

/-- Parse an object key: a quoted string (double quotes always; single quotes
only in permissive mode). -/
def parseKey (cfg : ParseCfg) (cs : List Char) : Option (String × List Char) :=
  match cs with
  | c :: rest =>
    if c = dquote then parseStringBody dquote (rest.length + 1) rest
    else if cfg.singleQuotes && c = squote then parseStringBody squote (rest.length + 1) rest
    else none
  | [] => none

mutual

/-- Parse one structured-literal value, returning it with the unconsumed
remainder of the input. -/
def parseVal (cfg : ParseCfg) : Nat → List Char → Option (PyVal × List Char)
  | 0, _ => none
  | fuel + 1, cs0 =>
    let cs := skipWs cs0
    match cs with
    | [] => none
    | c :: rest =>
      if c = lbrace then parseDictRest cfg fuel rest
      else if c = lbrack then parseListRest cfg fuel rest
      else if c = dquote then
        match parseStringBody dquote (rest.length + 1) rest with
        | some (s, r) => some (.str s, r)
        | none => none
      else if cfg.singleQuotes && c = squote then
        match parseStringBody squote (rest.length + 1) rest with
        | some (s, r) => some (.str s, r)
        | none => none
      else if c = '-' || c.isDigit then
        match parseNumber (c :: rest) with
        | some (q, r) => some (.num q, r)
        | none => none
      else if cfg.pythonConsts then
        if ['T', 'r', 'u', 'e'].isPrefixOf cs then some (.bool true, cs.drop 4)
        else if ['F', 'a', 'l', 's', 'e'].isPrefixOf cs then some (.bool false, cs.drop 5)
        else if ['N', 'o', 'n', 'e'].isPrefixOf cs then some (.null, cs.drop 4)
        else none
      else
        if ['t', 'r', 'u', 'e'].isPrefixOf cs then some (.bool true, cs.drop 4)
        else if ['f', 'a', 'l', 's', 'e'].isPrefixOf cs then some (.bool false, cs.drop 5)
        else if ['n', 'u', 'l', 'l'].isPrefixOf cs then some (.null, cs.drop 4)
        else none

/-- Parse the remainder of an object (the opening brace has been consumed). -/
def parseDictRest (cfg : ParseCfg) : Nat → List Char → Option (PyVal × List Char)
  | 0, _ => none
  | fuel + 1, cs0 =>
    let cs := skipWs cs0
    match cs with
    | [] => none
    | c :: rest =>
      if c = rbrace then some (.dict [], rest)
      else
        match parseMembers cfg fuel (c :: rest) with
        | some (ms, r) => some (.dict ms, r)
        | none => none

/-- Parse one or more `key : value` members followed by the closing brace,
honouring the trailing-comma flag. -/
def parseMembers (cfg : ParseCfg) : Nat → List Char → Option (List (String × PyVal) × List Char)
  | 0, _ => none
  | fuel + 1, cs0 =>
    match parseKey cfg (skipWs cs0) with
    | none => none
    | some (k, cs1) =>
      match skipWs cs1 with
      | c :: cs2 =>
        if c = ':' then
          match parseVal cfg fuel cs2 with
          | none => none
          | some (v, cs3) =>
            match skipWs cs3 with
            | c2 :: cs4 =>
              if c2 = rbrace then some ([(k, v)], cs4)
              else if c2 = ',' then
                match skipWs cs4 with
                | c3 :: cs6 =>
                  if c3 = rbrace then
                    if cfg.trailingComma then some ([(k, v)], cs6) else none
                  else
                    match parseMembers cfg fuel (c3 :: cs6) with
                    | some (ms, r) => some ((k, v) :: ms, r)
                    | none => none
                | [] => none
              else none
            | [] => none
        else none
      | [] => none

/-- Parse the remainder of an array (the opening bracket has been consumed). -/
def parseListRest (cfg : ParseCfg) : Nat → List Char → Option (PyVal × List Char)
  | 0, _ => none
  | fuel + 1, cs0 =>
    let cs := skipWs cs0
    match cs with
    | [] => none
    | c :: rest =>
      if c = rbrack then some (.list [], rest)
      else
        match parseItems cfg fuel (c :: rest) with
        | some (vs, r) => some (.list vs, r)
        | none => none

/-- Parse one or more array items followed by the closing bracket, honouring
the trailing-comma flag. -/
def parseItems (cfg : ParseCfg) : Nat → List Char → Option (List PyVal × List Char)
  | 0, _ => none
  | fuel + 1, cs0 =>
    match parseVal cfg fuel cs0 with
    | none => none
    | some (v, cs1) =>
      match skipWs cs1 with
      | c :: cs2 =>
        if c = rbrack then some ([v], cs2)
        else if c = ',' then
          match skipWs cs2 with
          | c2 :: cs4 =>
            if c2 = rbrack then
              if cfg.trailingComma then some ([v], cs4) else none
            else
              match parseItems cfg fuel (c2 :: cs4) with
              | some (vs, r) => some (v :: vs, r)
              | none => none
          | [] => none
        else none
      | [] => none

end

/-- Strict-JSON configuration used for `json.loads`. -/
def jsonCfg : ParseCfg := ⟨false, false, false⟩

/-- Permissive configuration used for `ast.literal_eval`. -/
def literalCfg : ParseCfg := ⟨true, true, true⟩

/-- Run the value parser on a whole input, requiring that nothing but
whitespace remains. -/
def parseTop (cfg : ParseCfg) (cs : List Char) : Option PyVal :=
  match parseVal cfg (cs.length + 16) cs with
  | some (v, rest) => if (skipWs rest).isEmpty then some v else none
  | none => none

/-- Model of `json.loads` as invoked by `Referee.parse_response`: strict
double-quoted strings, no trailing commas, `true`/`false`/`null` constants. -/
def json_loads (cs : List Char) : Option PyVal := parseTop jsonCfg cs

/-- Model of `ast.literal_eval` as invoked by `Referee.parse_response`:
single- or double-quoted strings, trailing commas allowed,
`True`/`False`/`None` constants. -/
def literal_eval (cs : List Char) : Option PyVal := parseTop literalCfg cs

/-- The second decode stage of `Referee.parse_response`: `ast.literal_eval`,
accepted only when the result is a mapping (`isinstance(python_obj, dict)`). -/
def literal_dict (cs : List Char) : Option (List (String × PyVal)) :=
  match literal_eval cs with
  | some (.dict d) => some d
  | _ => none

/-- The character substitutions of the cosmetic-repair step: each smart
quotation character is replaced by its ASCII counterpart
(`snippet.replace` in `Referee.parse_response`). -/
def replace_smart_quotes (c : Char) : Char :=
  if c = smartLD || c = smartRD then dquote
  else if c = smartLS || c = smartRS then squote
  else c

/-- One left-to-right pass removing a comma that is followed by optional
whitespace and a closing brace or bracket, the effect of
`re.sub(",\s*(\x7d|\])", "\1", cleaned)`.  The `fuel` argument bounds the
recursion; `clean_snippet` supplies enough for the whole input. -/
def strip_tc : Nat → List Char → List Char
  | 0, cs => cs
  | _, [] => []
  | fuel + 1, c :: cs =>
    if c = ',' then
      match skipWs cs with
      | d :: ds =>
        if d = rbrace || d = rbrack then strip_tc fuel (d :: ds)
        else c :: strip_tc fuel cs
      | [] => c :: strip_tc fuel cs
    else c :: strip_tc fuel cs

/-- The cosmetic-repair step of `Referee.parse_response`: normalise smart
quotes to ASCII quotes, then strip trailing commas before closing brackets. -/
def clean_snippet (cs : List Char) : List Char :=
  let sq := cs.map replace_smart_quotes
  strip_tc (sq.length + 1) sq

/-- Decode the extracted snippet, trying the three strategies of
`Referee.parse_response` in order: strict JSON decode, permissive
structured-literal decode accepted only for mappings, and a strict JSON
retry on the cosmetically repaired text. -/
def decode_snippet (cs : List Char) : Option PyVal :=
  match json_loads cs with
  | some v => some v
  | none =>
    match literal_dict cs with
    | some d => some (.dict d)
    | none => json_loads (clean_snippet cs)

/-- Find the last index at which `c` occurs, the model of `str.rfind`. -/
def last_index_of (c : Char) (cs : List Char) : Option Nat :=
  match cs.reverse.findIdx? (· = c) with
  | some j => some (cs.length - 1 - j)
  | none => none

/-- The extraction step of `Referee.parse_response`: take the span from the
first left brace to the last right brace; fail when either is absent or the
span is inverted or empty (`last <= first`). -/
def extract_snippet (response : String) : Option (List Char) :=
  let cs := response.toList
  match cs.findIdx? (· = lbrace), last_index_of rbrace cs with
  | some first, some last =>
    if last ≤ first then none
    else some ((cs.drop first).take (last + 1 - first))
  | some _, none => none
  | none, _ => none

/-! ### models/moves.py -/

/-- Embedding of `Move.clamp_guess` from `models/moves.py`: guesses below 0
become 0, guesses above 100 become 100, everything else passes through. -/
def clamp_guess (value : ℚ) : ℚ :=
  if value < 0 then 0 else if value > 100 then 100 else value

/-- Embedding of the `Move` pydantic model from `models/moves.py`.  The
`inner_thoughts` mapping is kept as the decoded dictionary. -/
structure Move where
  strategy : String
  guess : ℚ
  inner_thoughts : List (String × PyVal)
  public_message : String

/-- Look a key up in a decoded dictionary.  Python dictionaries keep the last
binding for a duplicated key, so the reversed list is searched. -/
def dict_get (d : List (String × PyVal)) (k : String) : Option PyVal :=
  (d.reverse.find? (fun p => p.1 == k)).map Prod.snd

/-- Extract a string value, as pydantic's `str` field coercion does for the
values move responses carry. -/
def as_str : PyVal → Option String
  | .str s => some s
  | _ => none

/-- Extract a numeric value for the `guess: float` field. -/
def as_num : PyVal → Option ℚ
  | .num q => some q
  | _ => none

/-- Embedding of `Move(**response_dict)`: requires the aliased fields
`secret strategy` (string) and `guess` (numeric), defaults `inner_thoughts`
to an empty mapping and `public message` to the empty string, ignores extra
keys, and clamps the guess via the `clamp_guess` validator as its last
step. -/
def moveFromDict (d : List (String × PyVal)) : Option Move :=
  match dict_get d "secret strategy", dict_get d "guess" with
  | some sv, some gv =>
    match as_str sv, as_num gv with
    | some s, some g =>
      let it : Option (List (String × PyVal)) :=
        match dict_get d "inner_thoughts" with
        | some (.dict m) => some m
        | none => some []
        | some _ => none
      let pm : Option String :=
        match dict_get d "public message" with
        | some (.str t) => some t
        | none => some ""
        | some _ => none
      match it, pm with
      | some m, some t => some ⟨s, clamp_guess g, m, t⟩
      | _, _ => none
    | _, _ => none
  | _, _ => none

/-- Embedding of `Referee.parse_response`: extract the first-to-last brace
span, decode it with the three-stage chain, and materialise the decoded
mapping into a `Move` (a decoded non-mapping makes `Move(**obj)` fail). -/
def parse_response (response : String) : Option Move :=
  match extract_snippet response with
  | none => none
  | some snip =>
    match decode_snippet snip with
    | some (.dict d) => moveFromDict d
    | some _ => none
    | none => none

/-! ### models/records.py -/

/-- Embedding of `TurnRecord` from `models/records.py`.  The prompt and
model-provenance string fields, which no claim mentions, are omitted. -/
structure TurnRecord where
  name : String
  turn : Nat
  is_invalid_move : Bool
  raw_response : String
  repair_attempted : Bool
  repaired_response : String
  move : Option Move
  guess : Option ℚ
  applied_guess : Option ℚ
  target_value : Option ℚ
  distance_from_target : Option ℚ
  score_delta : Option ℚ
  post_score : Option ℚ

/-- Embedding of `TurnRecord.__init__`: every field not passed explicitly
starts out false, empty, or `None`. -/
def TurnRecord.init (name : String) (turn : Nat) (move : Option Move)
    (is_invalid_move : Bool) (raw_response : String) : TurnRecord :=
  { name := name
    turn := turn
    is_invalid_move := is_invalid_move
    raw_response := raw_response
    repair_attempted := false
    repaired_response := ""
    move := move
    guess := none
    applied_guess := none
    target_value := none
    distance_from_target := none
    score_delta := none
    post_score := none }

/-! ### game/referees.py — per-player pipeline -/

/-- `Player.MAX_TOKENS` from `game/players.py`. -/
def MAX_TOKENS : Nat := 600

/-- The observable behaviour of one player for one turn: its name, the
outcome of `player.make_move` (the returned response text, or the exception
it raised), and the outcome of `player.llm.send` for a given max-token
budget as used during repair. -/
structure AgentBehavior where
  name : String
  make_move : Except Unit String
  send : Nat → Except Unit String

/-- The helper loop of `Referee.repair_response`: iterate over the players
in order, skip the failing player by name, and return the first helper
reply whose remote call returns; re-raise when every helper fails. -/
def helper_loop (failing : String) : List AgentBehavior → Except Unit String
  | [] => .error ()
  | h :: t =>
    if h.name == failing then helper_loop failing t
    else
      match h.send (MAX_TOKENS / 4) with
      | .ok r => .ok r
      | .error _ => helper_loop failing t

/-- Embedding of `Referee.repair_response`: first re-send a corrective
prompt to the same player with a quarter of the per-move token budget; only
when that call itself raises, fall back to the helper loop over the other
players. -/
def repair_response (players : List AgentBehavior) (p : AgentBehavior) :
    Except Unit String :=
  match p.send (MAX_TOKENS / 4) with
  | .ok r => .ok r
  | .error _ => helper_loop p.name players

/-- Embedding of `Referee.do_turn_for_player`: call the model, parse the
response, on parse failure run one repair cycle and re-parse once, and
convert any failure into an invalid-move record instead of propagating it.
On the repair-success path the source passes the repaired text as
`raw_response` and also stores it in `repaired_response`. -/
def do_turn_for_player (players : List AgentBehavior) (turn : Nat)
    (p : AgentBehavior) : TurnRecord :=
  match p.make_move with
  | .error _ => TurnRecord.init p.name turn none true ""
  | .ok resp_text =>
    match parse_response resp_text with
    | some move =>
      { TurnRecord.init p.name turn (some move) false resp_text with
        guess := some move.guess
        applied_guess := some move.guess }
    | none =>
      match repair_response players p with
      | .ok repaired =>
        match parse_response repaired with
        | some move =>
          { TurnRecord.init p.name turn (some move) false repaired with
            repair_attempted := true
            repaired_response := repaired
            guess := some move.guess
            applied_guess := some move.guess }
        | none => TurnRecord.init p.name turn none true resp_text
      | .error _ => TurnRecord.init p.name turn none true resp_text


/-- The record-collection phase of `Referee.do_turn`: one record per player,
in player order (`ThreadPoolExecutor.map` yields results in input order). -/
def turn_records (players : List AgentBehavior) (turn : Nat) : List TurnRecord :=
  players.map (do_turn_for_player players turn)

/-! ### game/referees.py — scoring -/

/-- `TARGET_MULTIPLIER` from `game/referees.py`, the float 0.7 modelled as
the exact rational. -/
def TARGET_MULTIPLIER : ℚ := 7 / 10

/-- The valid set of `Referee.handle_turn`: records that are not invalid
moves and carry a non-null applied guess. -/
def valid_records (records : List TurnRecord) : List TurnRecord :=
  records.filter (fun rec => !rec.is_invalid_move && rec.applied_guess.isSome)

/-- The target computation of `Referee.handle_turn`: `None` when the valid
set is empty, otherwise `TARGET_MULTIPLIER` times the mean of the valid
applied guesses. -/
def compute_target (records : List TurnRecord) : Option ℚ :=
  let v := valid_records records
  if v.isEmpty then none
  else some (TARGET_MULTIPLIER *
    ((v.map (fun rec => rec.applied_guess.getD 0)).sum / (v.length : ℚ)))

/-- The loop body of `Referee.handle_turn` for one record together with its
player's cumulative score: invalid records (and every record when no target
exists) keep the score and get a zero delta, with
`distance_from_target = None if target is None else abs((applied_guess or 0.0) - target)`;
valid records are re-clamped defensively, scored by closeness to the
target, and the delta is added to the player's score. -/
def score_record (target : Option ℚ) (rec : TurnRecord) (score : ℚ) :
    TurnRecord × ℚ :=
  match target with
  | none =>
    ({ rec with
        target_value := none
        distance_from_target := none
        score_delta := some 0
        post_score := some score }, score)
  | some t =>
    if rec.is_invalid_move || rec.applied_guess.isNone then
      ({ rec with
          target_value := some t
          distance_from_target := some |rec.applied_guess.getD 0 - t|
          score_delta := some 0
          post_score := some score }, score)
    else
      let g := max 0 (min 100 (rec.applied_guess.getD 0))
      let delta := max 0 (100 - |g - t|)
      ({ rec with
          applied_guess := some g
          target_value := some t
          distance_from_target := some |g - t|
          score_delta := some delta
          post_score := some (score + delta) }, score + delta)

/-- Embedding of `Referee.handle_turn`: compute the turn target from every
record, then run the scoring loop body over each record paired with its
player's cumulative score.  Player names are unique within a turn
(`self.records` is keyed by name), so each player's score is read and
written exactly once, which the pairing makes explicit. -/
def handle_turn (recs : List (TurnRecord × ℚ)) : List (TurnRecord × ℚ) :=
  let target := compute_target (recs.map Prod.fst)
  recs.map (fun pr => score_record target pr.1 pr.2)

/-! ### game/arenas.py -/

/-- The per-player slice of arena state that `process_turn_outcome` and
`handle_game_over` touch. -/
structure ArenaPlayer where
  name : String
  score : ℚ
  is_winner : Bool
  series : List ℚ
  deriving DecidableEq

/-- The arena state the game-over claims are about: the player list, the
1-based turn counter, and the game-over flag. -/
structure ArenaState where
  players : List ArenaPlayer
  turn : Nat
  is_game_over : Bool
  deriving DecidableEq

/-- `max(player.score for player in self.players)`; the source raises
`ValueError` on an empty roster, which the claims exclude, so the empty
case is given an arbitrary value here. -/
def winning_score : List ArenaPlayer → ℚ
  | [] => 0
  | p :: ps => ps.foldl (fun m q => max m q.score) p.score

/-- Embedding of `Arena.handle_game_over`: set the game-over flag and flag
every player whose score equals the maximum as a winner (external game
persistence is out of scope). -/
def handle_game_over (a : ArenaState) : ArenaState :=
  let w := winning_score a.players
  { a with
      is_game_over := true
      players := a.players.map (fun p =>
        if p.score = w then { p with is_winner := true } else p) }

/-- Embedding of `Arena.process_turn_outcome`: append each player's score to
its series; at turn 10 hand over to `handle_game_over`, otherwise (while
the game is not over) advance the turn counter. -/
def process_turn_outcome (a : ArenaState) : ArenaState :=
  let a' : ArenaState :=
    { a with players := a.players.map (fun p => { p with series := p.series ++ [p.score] }) }
  if a'.turn = 10 then handle_game_over a'
  else if !a'.is_game_over then { a' with turn := a'.turn + 1 }
  else a'

/-- Add a per-player score delta, the net effect of a `Referee.do_turn` call
on the arena's players; the deltas a real turn produces are the
`handle_turn` outputs. -/
def apply_deltas (d : String → ℚ) (a : ArenaState) : ArenaState :=
  { a with players := a.players.map (fun p => { p with score := p.score + d p.name }) }

/-- Run `n` completed turns of `Arena.do_turn` from a given state: each turn
updates scores by that turn's deltas and then runs `process_turn_outcome`. -/
def run_turns (d : Nat → String → ℚ) : Nat → ArenaState → ArenaState
  | 0, a => a
  | n + 1, a => run_turns d n (process_turn_outcome (apply_deltas (d a.turn) a))

/-- A fresh arena as `Arena.__init__` creates it: turn counter 1, game not
over, every player at score 0 with an initial series entry and no winner
flag. -/
def init_arena (names : List String) : ArenaState :=
  { players := names.map (fun n => ⟨n, 0, false, [0]⟩)
    turn := 1
    is_game_over := false }

/-! ### Shared lemmas -/

/-- `handle_turn` scores every record and drops none. -/
theorem handle_turn_length (recs : List (TurnRecord × ℚ)) :
    (handle_turn recs).length = recs.length := by
  simp [handle_turn]

/-- The record at position `i` after `handle_turn` is the loop body applied
to the record and score at position `i`. -/
theorem handle_turn_get (recs : List (TurnRecord × ℚ)) (i : Nat)
    (hi : i < recs.length) :
    (handle_turn recs).get ⟨i, (handle_turn_length recs).symm ▸ hi⟩ =
      score_record (compute_target (recs.map Prod.fst))
        (recs.get ⟨i, hi⟩).1 (recs.get ⟨i, hi⟩).2 := by
  simp [handle_turn, List.get_eq_getElem, List.getElem_map]

/-- Clamped guesses always land in the allowed interval. -/
theorem clamp_guess_range (g : ℚ) : 0 ≤ clamp_guess g ∧ clamp_guess g ≤ 100 := by
  unfold clamp_guess
  split_ifs with h1 h2 <;> constructor <;> linarith

/-- A record (and score) carrying only an applied guess and a validity flag,
for concrete scoring scenarios. -/
def guess_rec (n : String) (g : Option ℚ) (inv : Bool) : TurnRecord :=
  { TurnRecord.init n 1 none inv "" with applied_guess := g }

/-! ### Claims about scoring (C1, C2, C3, C10) -/

/-- C1: when the valid set is non-empty, `handle_turn` computes the target
as 0.7 times the mean of the valid applied guesses; every valid record gets
`target_value` equal to the target, `distance_from_target` equal to the
absolute difference between its applied guess and the target, a score delta
of `max 0 (100 - distance)` added to its player's cumulative score, and
`post_score` equal to the updated score.  In particular valid guesses
20, 40, 60 yield target 28, and a guess of 30 against target 28 (realised
by the valid guesses 30 and 50) yields distance 2 and score delta 98. -/
theorem C1_handle_turn_scoring :
    (∀ recs : List (TurnRecord × ℚ),
      valid_records (recs.map Prod.fst) ≠ [] →
      compute_target (recs.map Prod.fst) =
        some (TARGET_MULTIPLIER *
          (((valid_records (recs.map Prod.fst)).map
              (fun rec => rec.applied_guess.getD 0)).sum /
            ((valid_records (recs.map Prod.fst)).length : ℚ)))) ∧
    (∀ (recs : List (TurnRecord × ℚ)) (t g : ℚ) (i : Nat)
        (hi : i < recs.length),
      compute_target (recs.map Prod.fst) = some t →
      (recs.get ⟨i, hi⟩).1.is_invalid_move = false →
      (recs.get ⟨i, hi⟩).1.applied_guess = some g →
      0 ≤ g → g ≤ 100 →
      (handle_turn recs).get ⟨i, (handle_turn_length recs).symm ▸ hi⟩ =
        ({ (recs.get ⟨i, hi⟩).1 with
            applied_guess := some g
            target_value := some t
            distance_from_target := some |g - t|
            score_delta := some (max 0 (100 - |g - t|))
            post_score := some ((recs.get ⟨i, hi⟩).2 + max 0 (100 - |g - t|)) },
          (recs.get ⟨i, hi⟩).2 + max 0 (100 - |g - t|))) ∧
    compute_target [guess_rec "A" (some 20) false, guess_rec "B" (some 40) false,
      guess_rec "C" (some 60) false] = some 28 ∧
    ((handle_turn [(guess_rec "A" (some 30) false, 0),
        (guess_rec "B" (some 50) false, 0)]).get ⟨0, by decide⟩).1.target_value
        = some 28 ∧
    ((handle_turn [(guess_rec "A" (some 30) false, 0),
        (guess_rec "B" (some 50) false, 0)]).get
        ⟨0, by decide⟩).1.distance_from_target = some 2 ∧
    ((handle_turn [(guess_rec "A" (some 30) false, 0),
        (guess_rec "B" (some 50) false, 0)]).get ⟨0, by decide⟩).1.score_delta
        = some 98 := by
  refine ⟨?_, ?_,
    by norm_num [compute_target, valid_records, guess_rec, TurnRecord.init,
      TARGET_MULTIPLIER],
    by norm_num [handle_turn, score_record, compute_target, valid_records,
      guess_rec, TurnRecord.init, TARGET_MULTIPLIER, List.get],
    by norm_num [handle_turn, score_record, compute_target, valid_records,
      guess_rec, TurnRecord.init, TARGET_MULTIPLIER, List.get],
    by norm_num [handle_turn, score_record, compute_target, valid_records,
      guess_rec, TurnRecord.init, TARGET_MULTIPLIER, List.get]⟩
  · intro recs h
    rw [compute_target]
    simp only [List.isEmpty_iff, h, if_false]
  · intro recs t g i hi ht hv hg h0 h100
    rw [handle_turn_get recs i hi, ht]
    simp only [score_record, hv, hg, Option.isNone_some, Bool.or_self,
      Bool.false_eq_true, if_false, Option.getD_some]
    have hmin : min 100 g = g := min_eq_right h100
    have hmax : max 0 g = g := max_eq_right h0
    rw [hmin, hmax]

/-- C1 witness: the scoring theorem applied to the concrete turn with valid
guesses 30 and 50 — the target formula instantiates to 28, and the
30-guess record is scored with distance 2 and delta 98 added to its score. -/
theorem C1_handle_turn_scoring_witness :
    compute_target
      ([(guess_rec "A" (some 30) false, (0 : ℚ)),
        (guess_rec "B" (some 50) false, 0)].map Prod.fst) =
      some (TARGET_MULTIPLIER *
        (((valid_records ([(guess_rec "A" (some 30) false, (0 : ℚ)),
              (guess_rec "B" (some 50) false, 0)].map Prod.fst)).map
            (fun rec => rec.applied_guess.getD 0)).sum /
          ((valid_records ([(guess_rec "A" (some 30) false, (0 : ℚ)),
              (guess_rec "B" (some 50) false, 0)].map Prod.fst)).length : ℚ))) ∧
    (handle_turn [(guess_rec "A" (some 30) false, 0),
        (guess_rec "B" (some 50) false, 0)]).get ⟨0, by decide⟩ =
      ({ guess_rec "A" (some 30) false with
          applied_guess := some 30
          target_value := some 28
          distance_from_target := some |(30 : ℚ) - 28|
          score_delta := some (max 0 (100 - |(30 : ℚ) - 28|))
          post_score := some (0 + max 0 (100 - |(30 : ℚ) - 28|)) },
        0 + max 0 (100 - |(30 : ℚ) - 28|)) := by
  constructor
  · exact C1_handle_turn_scoring.1
      [(guess_rec "A" (some 30) false, 0), (guess_rec "B" (some 50) false, 0)]
      (by simp [valid_records, guess_rec, TurnRecord.init])
  · exact C1_handle_turn_scoring.2.1
      [(guess_rec "A" (some 30) false, 0), (guess_rec "B" (some 50) false, 0)]
      28 30 0 (by decide)
      (by norm_num [compute_target, valid_records, guess_rec, TurnRecord.init,
        TARGET_MULTIPLIER])
      rfl rfl (by norm_num) (by norm_num)

/-- C2 counterexample: with one valid guess of 50 and one invalid record,
the target is 35 and the invalid record's `distance_from_target` is set to
35 — not null as the claim states. -/
theorem C2_counterexample :
    ((handle_turn [(guess_rec "A" (some 50) false, 0),
        (guess_rec "B" none true, 0)]).get ⟨1, by decide⟩).1.distance_from_target
      = some 35 ∧
    ((handle_turn [(guess_rec "A" (some 50) false, 0),
        (guess_rec "B" none true, 0)]).get ⟨1, by decide⟩).1.distance_from_target
      ≠ none ∧
    (guess_rec "B" none true).is_invalid_move = true ∧
    (valid_records [guess_rec "A" (some 50) false, guess_rec "B" none true]).isEmpty
      = false := by
  have h1 : ((handle_turn [(guess_rec "A" (some 50) false, 0),
      (guess_rec "B" none true, 0)]).get ⟨1, by decide⟩).1.distance_from_target
      = some 35 := by
    norm_num [handle_turn, score_record, compute_target, valid_records,
      guess_rec, TurnRecord.init, TARGET_MULTIPLIER, List.get]
  refine ⟨h1, by rw [h1]; simp, by decide, by decide⟩

/-- C2 (amended): when a target was computed, every invalid record (or
record with a null applied guess) gets `target_value` equal to the target,
`score_delta = 0`, `post_score` equal to the player's unchanged cumulative
score, and `distance_from_target` set to the absolute difference between
the target and the record's applied guess taken as 0 when null — a real
value, not null. -/
theorem C2_invalid_record_outputs (recs : List (TurnRecord × ℚ)) (t : ℚ)
    (i : Nat) (hi : i < recs.length)
    (ht : compute_target (recs.map Prod.fst) = some t)
    (hinv : (recs.get ⟨i, hi⟩).1.is_invalid_move = true ∨
      (recs.get ⟨i, hi⟩).1.applied_guess = none) :
    (handle_turn recs).get ⟨i, (handle_turn_length recs).symm ▸ hi⟩ =
      ({ (recs.get ⟨i, hi⟩).1 with
          target_value := some t
          distance_from_target :=
            some |(recs.get ⟨i, hi⟩).1.applied_guess.getD 0 - t|
          score_delta := some 0
          post_score := some (recs.get ⟨i, hi⟩).2 },
        (recs.get ⟨i, hi⟩).2) := by
  rw [handle_turn_get recs i hi, ht]
  have hcond : ((recs.get ⟨i, hi⟩).1.is_invalid_move ||
      (recs.get ⟨i, hi⟩).1.applied_guess.isNone) = true := by
    rcases hinv with h | h <;> rw [h] <;> simp
  simp only [score_record, hcond, if_true]

/-- C2 witness for the amended claim: in the concrete two-record turn with
one valid guess of 50, the invalid record keeps its score, earns a zero
delta, sees target 35 and gets distance 35. -/
theorem C2_invalid_record_outputs_witness :
    (handle_turn [(guess_rec "A" (some 50) false, 0),
        (guess_rec "B" none true, 0)]).get ⟨1, by decide⟩ =
      ({ guess_rec "B" none true with
          target_value := some 35
          distance_from_target := some 35
          score_delta := some 0
          post_score := some 0 }, 0) := by
  have h := C2_invalid_record_outputs
    [(guess_rec "A" (some 50) false, 0), (guess_rec "B" none true, 0)] 35 1
    (by decide)
    (by norm_num [compute_target, valid_records, guess_rec, TurnRecord.init,
      TARGET_MULTIPLIER])
    (Or.inl (by decide))
  simpa [guess_rec, TurnRecord.init, List.get] using h

/-- C3: when every record is invalid or carries no applied guess, the target
is undefined, every record ends the turn with `target_value = none`,
`distance_from_target = none` and `score_delta = 0`, and every player's
cumulative score is unchanged. -/
theorem C3_empty_valid_set (recs : List (TurnRecord × ℚ))
    (h : valid_records (recs.map Prod.fst) = []) :
    compute_target (recs.map Prod.fst) = none ∧
    ∀ (i : Nat) (hi : i < recs.length),
      (handle_turn recs).get ⟨i, (handle_turn_length recs).symm ▸ hi⟩ =
        ({ (recs.get ⟨i, hi⟩).1 with
            target_value := none
            distance_from_target := none
            score_delta := some 0
            post_score := some (recs.get ⟨i, hi⟩).2 },
          (recs.get ⟨i, hi⟩).2) := by
  have ht : compute_target (recs.map Prod.fst) = none := by
    rw [compute_target]
    simp [List.isEmpty_iff, h]
  refine ⟨ht, ?_⟩
  intro i hi
  rw [handle_turn_get recs i hi, ht]
  simp only [score_record]

/-- C3 witness: a turn whose two records are both invalid leaves both
scores at their prior values with no target and zero deltas. -/
theorem C3_empty_valid_set_witness :
    compute_target [guess_rec "A" none true, guess_rec "B" (some 4) true] = none ∧
    (handle_turn [(guess_rec "A" none true, 3),
        (guess_rec "B" (some 4) true, 7)]).get ⟨1, by decide⟩ =
      ({ guess_rec "B" (some 4) true with
          target_value := none
          distance_from_target := none
          score_delta := some 0
          post_score := some 7 }, 7) := by
  have h := C3_empty_valid_set
    [(guess_rec "A" none true, 3), (guess_rec "B" (some 4) true, 7)]
    (by simp [valid_records, guess_rec, TurnRecord.init])
  exact ⟨h.1, by simpa using h.2 1 (by decide)⟩

/-- C10: `handle_turn` never lowers a player's cumulative score — every
score delta it assigns is non-negative, and every output score is at least
the input score. -/
theorem C10_scores_monotone (recs : List (TurnRecord × ℚ)) :
    (∀ (i : Nat) (hi : i < recs.length),
      (recs.get ⟨i, hi⟩).2 ≤
        ((handle_turn recs).get ⟨i, (handle_turn_length recs).symm ▸ hi⟩).2) ∧
    (∀ (i : Nat) (hi : i < recs.length) (dl : ℚ),
      ((handle_turn recs).get
          ⟨i, (handle_turn_length recs).symm ▸ hi⟩).1.score_delta = some dl →
      0 ≤ dl) := by
  constructor
  · intro i hi
    rw [handle_turn_get recs i hi]
    rcases htar : compute_target (recs.map Prod.fst) with _ | t
    · simp only [score_record]
      exact le_refl _
    · simp only [score_record]
      split
      · simp only [le_refl]
      · have hnn : (0 : ℚ) ≤ max 0
            (100 - |max 0 (min 100 ((recs.get ⟨i, hi⟩).1.applied_guess.getD 0)) - t|) :=
          le_max_left _ _
        simp only
        linarith
  · intro i hi dl hdl
    rw [handle_turn_get recs i hi] at hdl
    rcases htar : compute_target (recs.map Prod.fst) with _ | t <;>
      rw [htar] at hdl <;> simp only [score_record] at hdl
    · simp only [Option.some.injEq] at hdl
      rw [← hdl]
    · split at hdl <;> simp only [Option.some.injEq] at hdl <;> rw [← hdl]
      exact le_max_left _ _

/-- C10 witness: in a concrete mixed turn the valid player's score rises
from 3 and the invalid player's delta is the non-negative 0. -/
theorem C10_scores_monotone_witness :
    ((3 : ℚ) ≤ ((handle_turn [(guess_rec "A" (some 50) false, 3),
        (guess_rec "B" none true, 7)]).get ⟨0, by decide⟩).2) ∧
    ((0 : ℚ) ≤ 0) := by
  refine ⟨?_, le_refl 0⟩
  have h := (C10_scores_monotone
    [(guess_rec "A" (some 50) false, 3), (guess_rec "B" none true, 7)]).1 0
    (by decide)
  simpa using h

/-! ### Claim about the parse chain (C4) -/

/-- A model reply that wraps a single-quoted Python-style dictionary in
prose, the tolerant-literal test input. -/
def single_quoted_response : String :=
  "Here is my move: \x7b'secret strategy': 'x', 'guess': 50\x7d"

/-- The brace span `extract_snippet` finds in `single_quoted_response`. -/
def single_quoted_snippet : List Char :=
  "\x7b'secret strategy': 'x', 'guess': 50\x7d".toList

/-- A model reply whose keys and values use Unicode smart quotes and which
carries a trailing comma before the closing brace, the cosmetic-repair test
input. -/
def smart_quoted_response : String :=
  "\x7b" ++ String.singleton smartLD ++ "secret strategy" ++ String.singleton smartRD
    ++ ": " ++ String.singleton smartLD ++ "x" ++ String.singleton smartRD
    ++ ", " ++ String.singleton smartLD ++ "guess" ++ String.singleton smartRD
    ++ ": 50,\x7d"

/-- The brace span of `smart_quoted_response` (the whole reply). -/
def smart_quoted_snippet : List Char := smart_quoted_response.toList

/-- A player that returns the smart-quoted reply and whose repair channel
always fails, showing that the cosmetic path needs no remote call. -/
def smart_agent : AgentBehavior :=
  ⟨"S", .ok smart_quoted_response, fun _ => .error ()⟩

/-- C4: `parse_response` decodes the extracted brace span by trying strict
JSON decode, then the permissive structured-literal decode accepted only
for mappings, then one strict retry on the cosmetically repaired text
(smart quotes normalised, trailing commas stripped), failing only if all
three fail.  The single-quoted reply succeeds via the permissive-literal
path when strict JSON fails, and the smart-quoted reply with a trailing
comma succeeds via cosmetic repair with no remote repair call. -/
theorem C4_decode_chain :
    (∀ (cs : List Char) (v : PyVal),
      json_loads cs = some v → decode_snippet cs = some v) ∧
    (∀ (cs : List Char) (d : List (String × PyVal)),
      json_loads cs = none → literal_dict cs = some d →
      decode_snippet cs = some (.dict d)) ∧
    (∀ cs : List Char, json_loads cs = none → literal_dict cs = none →
      decode_snippet cs = json_loads (clean_snippet cs)) ∧
    (∀ cs : List Char, decode_snippet cs = none ↔
      json_loads cs = none ∧ literal_dict cs = none ∧
        json_loads (clean_snippet cs) = none) ∧
    (json_loads single_quoted_snippet = none ∧
      literal_dict single_quoted_snippet =
        some [("secret strategy", .str "x"), ("guess", .num 50)] ∧
      parse_response single_quoted_response = some ⟨"x", 50, [], ""⟩) ∧
    (json_loads smart_quoted_snippet = none ∧
      literal_dict smart_quoted_snippet = none ∧
      json_loads (clean_snippet smart_quoted_snippet) =
        some (.dict [("secret strategy", .str "x"), ("guess", .num 50)]) ∧
      parse_response smart_quoted_response = some ⟨"x", 50, [], ""⟩ ∧
      (do_turn_for_player [smart_agent] 1 smart_agent).repair_attempted = false ∧
      (do_turn_for_player [smart_agent] 1 smart_agent).is_invalid_move = false) := by
  refine ⟨?_, ?_, ?_, ?_, ⟨rfl, rfl, rfl⟩, ⟨rfl, rfl, rfl, rfl, rfl, rfl⟩⟩
  · intro cs v h
    simp only [decode_snippet, h]
  · intro cs d hj hl
    simp only [decode_snippet, hj, hl]
  · intro cs hj hl
    simp only [decode_snippet, hj, hl]
  · intro cs
    cases hj : json_loads cs <;> cases hl : literal_dict cs <;>
      simp [decode_snippet, hj, hl]

/-- C4 witness: the chain lemmas applied to the two concrete replies — the
single-quoted snippet decodes through the literal path, and the
smart-quoted snippet decodes through the cosmetic-repair path. -/
theorem C4_decode_chain_witness :
    decode_snippet single_quoted_snippet =
      some (.dict [("secret strategy", .str "x"), ("guess", .num 50)]) ∧
    decode_snippet smart_quoted_snippet =
      json_loads (clean_snippet smart_quoted_snippet) :=
  ⟨C4_decode_chain.2.1 single_quoted_snippet
      [("secret strategy", .str "x"), ("guess", .num 50)] rfl rfl,
    C4_decode_chain.2.2.1 smart_quoted_snippet rfl rfl⟩

/-! ### Claim about guess clamping (C5) -/

/-- Every move constructed from a decoded mapping carries a guess that went
through the `clamp_guess` validator as the last step. -/
theorem moveFromDict_guess_clamped (d : List (String × PyVal)) (m : Move)
    (h : moveFromDict d = some m) : ∃ g, m.guess = clamp_guess g := by
  unfold moveFromDict at h
  repeat' split at h
  all_goals try cases h
  all_goals exact ⟨_, rfl⟩

/-- Every move produced by `parse_response` carries a clamped guess. -/
theorem parse_response_guess_clamped (s : String) (m : Move)
    (h : parse_response s = some m) : ∃ g, m.guess = clamp_guess g := by
  unfold parse_response at h
  repeat' split at h
  all_goals try cases h
  all_goals exact moveFromDict_guess_clamped _ _ h

/-- C5: the guess validator is the identity on [0,100], returns 0 below and
100 above, and consequently no constructed move — whether materialised from
a decoded mapping or produced by the full parse — carries an out-of-range
guess. -/
theorem C5_guess_clamped :
    (∀ g : ℚ, 0 ≤ g → g ≤ 100 → clamp_guess g = g) ∧
    (∀ g : ℚ, g < 0 → clamp_guess g = 0) ∧
    (∀ g : ℚ, 100 < g → clamp_guess g = 100) ∧
    (∀ (d : List (String × PyVal)) (m : Move),
      moveFromDict d = some m → 0 ≤ m.guess ∧ m.guess ≤ 100) ∧
    (∀ (s : String) (m : Move),
      parse_response s = some m → 0 ≤ m.guess ∧ m.guess ≤ 100) := by
  refine ⟨?_, ?_, ?_, ?_, ?_⟩
  · intro g h0 h100
    unfold clamp_guess
    rw [if_neg (by linarith), if_neg (by linarith)]
  · intro g h
    unfold clamp_guess
    rw [if_pos h]
  · intro g h
    unfold clamp_guess
    rw [if_neg (by linarith), if_pos h]
  · intro d m h
    obtain ⟨g, hg⟩ := moveFromDict_guess_clamped d m h
    rw [hg]
    exact clamp_guess_range g
  · intro s m h
    obtain ⟨g, hg⟩ := parse_response_guess_clamped s m h
    rw [hg]
    exact clamp_guess_range g

/-- C5 witness: clamping at the concrete inputs 50, -5 and 150, and the
range invariant for the move materialised from a concrete mapping. -/
theorem C5_guess_clamped_witness :
    clamp_guess 50 = 50 ∧ clamp_guess (-5) = 0 ∧ clamp_guess 150 = 100 ∧
    (0 ≤ (Move.mk "x" (clamp_guess 50) [] "").guess ∧
      (Move.mk "x" (clamp_guess 50) [] "").guess ≤ 100) :=
  ⟨C5_guess_clamped.1 50 (by norm_num) (by norm_num),
    C5_guess_clamped.2.1 (-5) (by norm_num),
    C5_guess_clamped.2.2.1 150 (by norm_num),
    C5_guess_clamped.2.2.2.1
      [("secret strategy", PyVal.str "x"), ("guess", PyVal.num 50)]
      (Move.mk "x" (clamp_guess 50) [] "") rfl⟩

/-! ### Claims about the per-player pipeline (C6, C7, C8) -/

/-- `turn_records` produces one record per player. -/
theorem turn_records_length (players : List AgentBehavior) (turn : Nat) :
    (turn_records players turn).length = players.length := by
  simp [turn_records]

/-- When the helpers before `h` all either carry the failing player's name
or fail, and `h` is a different player whose call returns, the helper loop
returns `h`'s reply. -/
theorem helper_loop_first (failing : String) (pre post : List AgentBehavior)
    (h : AgentBehavior) (r : String)
    (hpre : ∀ a ∈ pre, a.name = failing ∨ a.send (MAX_TOKENS / 4) = .error ())
    (hname : ¬h.name = failing) (hok : h.send (MAX_TOKENS / 4) = .ok r) :
    helper_loop failing (pre ++ h :: post) = .ok r := by
  induction pre with
  | nil =>
    simp only [List.nil_append, helper_loop]
    rw [if_neg (by simpa using hname), hok]
  | cons a t ih =>
    have ha := hpre a (List.mem_cons_self a t)
    have ht : ∀ b ∈ t, b.name = failing ∨ b.send (MAX_TOKENS / 4) = .error () :=
      fun b hb => hpre b (List.mem_cons_of_mem a hb)
    simp only [List.cons_append, helper_loop]
    rcases ha with hn | he
    · rw [if_pos (by simpa using hn)]
      exact ih ht
    · by_cases hn2 : (a.name == failing) = true
      · rw [if_pos hn2]
        exact ih ht
      · rw [if_neg hn2, he]
        exact ih ht

/-- When every player either carries the failing player's name or fails,
the helper loop re-raises. -/
theorem helper_loop_all_fail (failing : String) (roster : List AgentBehavior)
    (hall : ∀ a ∈ roster, a.name = failing ∨ a.send (MAX_TOKENS / 4) = .error ()) :
    helper_loop failing roster = .error () := by
  induction roster with
  | nil => rfl
  | cons a t ih =>
    have ha := hall a (List.mem_cons_self a t)
    have ht : ∀ b ∈ t, b.name = failing ∨ b.send (MAX_TOKENS / 4) = .error () :=
      fun b hb => hall b (List.mem_cons_of_mem a hb)
    simp only [helper_loop]
    rcases ha with hn | he
    · rw [if_pos (by simpa using hn)]
      exact ih ht
    · by_cases hn2 : (a.name == failing) = true
      · rw [if_pos hn2]
        exact ih ht
      · rw [if_neg hn2, he]
        exact ih ht

/-- C6: every failure in a player's per-turn pipeline — the model call
raising, or the parse failing with the repair cycle also exhausted — is
caught at the per-player boundary and converted into a record with
`is_invalid_move = true` that retains the response text seen so far (the
empty string when the model call itself raised, as the source's `response`
variable still holds its initial value there); and the turn's record list
is the independent per-player map, so one player's failure never aborts a
sibling's resolution. -/
theorem C6_failure_isolation :
    (∀ (roster : List AgentBehavior) (turn : Nat) (p : AgentBehavior),
      p.make_move = .error () →
      (do_turn_for_player roster turn p).is_invalid_move = true ∧
      (do_turn_for_player roster turn p).raw_response = "") ∧
    (∀ (roster : List AgentBehavior) (turn : Nat) (p : AgentBehavior)
        (resp : String),
      p.make_move = .ok resp → parse_response resp = none →
      repair_response roster p = .error () →
      (do_turn_for_player roster turn p).is_invalid_move = true ∧
      (do_turn_for_player roster turn p).raw_response = resp) ∧
    (∀ (roster : List AgentBehavior) (turn : Nat) (p : AgentBehavior)
        (resp rep : String),
      p.make_move = .ok resp → parse_response resp = none →
      repair_response roster p = .ok rep → parse_response rep = none →
      (do_turn_for_player roster turn p).is_invalid_move = true ∧
      (do_turn_for_player roster turn p).raw_response = resp) ∧
    (∀ (roster : List AgentBehavior) (turn : Nat) (i : Nat)
        (hi : i < roster.length),
      (turn_records roster turn).get
          ⟨i, (turn_records_length roster turn).symm ▸ hi⟩ =
        do_turn_for_player roster turn (roster.get ⟨i, hi⟩)) := by
  refine ⟨?_, ?_, ?_, ?_⟩
  · intro roster turn p h
    simp only [do_turn_for_player, h]
    exact ⟨rfl, rfl⟩
  · intro roster turn p resp h1 h2 h3
    simp only [do_turn_for_player, h1, h2, h3]
    exact ⟨rfl, rfl⟩
  · intro roster turn p resp rep h1 h2 h3 h4
    simp only [do_turn_for_player, h1, h2, h3, h4]
    exact ⟨rfl, rfl⟩
  · intro roster turn i hi
    simp [turn_records, List.get_eq_getElem, List.getElem_map]

/-- A player whose model call raises. -/
def agent_raise : AgentBehavior := ⟨"Q", .error (), fun _ => .error ()⟩

/-- A player that returns unparseable text and whose repair channel also
fails. -/
def agent_bad : AgentBehavior := ⟨"P", .ok "no json here", fun _ => .error ()⟩

/-- A well-formed JSON move reply. -/
def good_json : String := "\x7b\"secret strategy\": \"x\", \"guess\": 50\x7d"

/-- C6 witness: the model-call failure and the repair-exhausted failure both
yield invalid records with the available raw text, at concrete players, and
the record list indexes independently. -/
theorem C6_failure_isolation_witness :
    ((do_turn_for_player [agent_raise, agent_bad] 1 agent_raise).is_invalid_move
        = true ∧
      (do_turn_for_player [agent_raise, agent_bad] 1 agent_raise).raw_response
        = "") ∧
    ((do_turn_for_player [agent_bad] 1 agent_bad).is_invalid_move = true ∧
      (do_turn_for_player [agent_bad] 1 agent_bad).raw_response
        = "no json here") ∧
    (turn_records [agent_raise, agent_bad] 1).get ⟨1, by decide⟩ =
      do_turn_for_player [agent_raise, agent_bad] 1 agent_bad :=
  ⟨C6_failure_isolation.1 [agent_raise, agent_bad] 1 agent_raise rfl,
    C6_failure_isolation.2.1 [agent_bad] 1 agent_bad "no json here" rfl rfl rfl,
    C6_failure_isolation.2.2.2 [agent_raise, agent_bad] 1 1 (by decide)⟩

/-- C7: `repair_response` first re-sends to the same player with a quarter
of the 600-token per-move budget; only when that call raises does it walk
the other players in order, returning the first helper reply whose remote
call returns, without re-parsing it; when the same-player call and every
helper fail the error propagates; and the caller then runs the parse on
the repaired text exactly once, that single parse deciding the record. -/
theorem C7_repair_protocol :
    (MAX_TOKENS = 600 ∧ MAX_TOKENS / 4 = 150) ∧
    (∀ (roster : List AgentBehavior) (p : AgentBehavior) (r : String),
      p.send (MAX_TOKENS / 4) = .ok r → repair_response roster p = .ok r) ∧
    (∀ (pre post : List AgentBehavior) (h p : AgentBehavior) (r : String),
      p.send (MAX_TOKENS / 4) = .error () →
      (∀ a ∈ pre, a.name = p.name ∨ a.send (MAX_TOKENS / 4) = .error ()) →
      ¬h.name = p.name → h.send (MAX_TOKENS / 4) = .ok r →
      repair_response (pre ++ h :: post) p = .ok r) ∧
    (∀ (roster : List AgentBehavior) (p : AgentBehavior),
      p.send (MAX_TOKENS / 4) = .error () →
      (∀ a ∈ roster, a.name = p.name ∨ a.send (MAX_TOKENS / 4) = .error ()) →
      repair_response roster p = .error ()) ∧
    (∀ (roster : List AgentBehavior) (turn : Nat) (p : AgentBehavior)
        (resp rep : String),
      p.make_move = .ok resp → parse_response resp = none →
      repair_response roster p = .ok rep →
      do_turn_for_player roster turn p =
        (match parse_response rep with
          | some mv =>
            { TurnRecord.init p.name turn (some mv) false rep with
                repair_attempted := true
                repaired_response := rep
                guess := some mv.guess
                applied_guess := some mv.guess }
          | none => TurnRecord.init p.name turn none true resp)) := by
  refine ⟨⟨rfl, rfl⟩, ?_, ?_, ?_, ?_⟩
  · intro roster p r h
    simp only [repair_response, h]
  · intro pre post h p r herr hpre hname hok
    simp only [repair_response, herr]
    exact helper_loop_first p.name pre post h r hpre hname hok
  · intro roster p herr hall
    simp only [repair_response, herr]
    exact helper_loop_all_fail p.name roster hall
  · intro roster turn p resp rep h1 h2 h3
    simp only [do_turn_for_player, h1, h2, h3]

/-- A helper player whose remote call fails. -/
def agent_helper_down : AgentBehavior := ⟨"H1", .error (), fun _ => .error ()⟩

/-- A helper player whose remote call returns a well-formed reply. -/
def agent_helper_up : AgentBehavior := ⟨"H2", .error (), fun _ => .ok good_json⟩

/-- C7 witness: with the failing player first and a downed helper before a
working one, the repair returns the working helper's reply; with no working
helper, it propagates the error. -/
theorem C7_repair_protocol_witness :
    repair_response [agent_bad, agent_helper_down, agent_helper_up] agent_bad
      = .ok good_json ∧
    repair_response [agent_bad, agent_helper_down] agent_bad = .error () :=
  ⟨C7_repair_protocol.2.2.1 [agent_bad, agent_helper_down] []
      agent_helper_up agent_bad good_json rfl
      (by
        intro a ha
        rcases List.mem_cons.1 ha with h | h
        · exact Or.inl (by rw [h])
        · rcases List.mem_singleton.1 h with h2
          exact Or.inr (by rw [h2]; rfl))
      (by decide) rfl,
    C7_repair_protocol.2.2.2.1 [agent_bad, agent_helper_down] agent_bad rfl
      (by
        intro a ha
        rcases List.mem_cons.1 ha with h | h
        · exact Or.inl (by rw [h])
        · rcases List.mem_singleton.1 h with h2
          exact Or.inr (by rw [h2]; rfl))⟩

/-- A player whose first reply is unparseable and whose repair channel
returns a well-formed reply. -/
def agent_repair : AgentBehavior := ⟨"A", .ok "oops", fun _ => .ok good_json⟩

/-- C8 counterexample: on the repair-success path the record's
`raw_response` is overwritten with the repaired text — the original raw
model response ("oops") is not present on the record, contradicting the
claim that both texts are retained. -/
theorem C8_counterexample :
    (do_turn_for_player [agent_repair] 1 agent_repair).repair_attempted = true ∧
    (do_turn_for_player [agent_repair] 1 agent_repair).raw_response
      = good_json ∧
    (do_turn_for_player [agent_repair] 1 agent_repair).repaired_response
      = good_json ∧
    ¬good_json = "oops" ∧
    ¬(do_turn_for_player [agent_repair] 1 agent_repair).raw_response
      = "oops" := by
  exact ⟨rfl, rfl, rfl, by decide, by decide⟩

/-- C8 (amended): when the initial parse fails and the repaired text parses,
the record has `repair_attempted = true` and carries the repaired text in
both `raw_response` and `repaired_response`; the original raw model
response is not stored on the record. -/
theorem C8_repair_record_texts (roster : List AgentBehavior) (turn : Nat)
    (p : AgentBehavior) (resp rep : String) (mv : Move)
    (h1 : p.make_move = .ok resp) (h2 : parse_response resp = none)
    (h3 : repair_response roster p = .ok rep)
    (h4 : parse_response rep = some mv) :
    (do_turn_for_player roster turn p).repair_attempted = true ∧
    (do_turn_for_player roster turn p).raw_response = rep ∧
    (do_turn_for_player roster turn p).repaired_response = rep := by
  simp [do_turn_for_player, TurnRecord.init, h1, h2, h3, h4]

/-- C8 witness for the amended claim: the concrete repaired player's record
carries the repaired JSON in both text fields. -/
theorem C8_repair_record_texts_witness :
    (do_turn_for_player [agent_repair] 2 agent_repair).repair_attempted
      = true ∧
    (do_turn_for_player [agent_repair] 2 agent_repair).raw_response
      = good_json ∧
    (do_turn_for_player [agent_repair] 2 agent_repair).repaired_response
      = good_json :=
  C8_repair_record_texts [agent_repair] 2 agent_repair "oops" good_json
    ⟨"x", 50, [], ""⟩ rfl rfl rfl rfl

/-! ### Claim about game termination (C9) -/

/-- While the turn counter is below 10 and the game is running,
`process_turn_outcome` advances the counter and keeps the game open. -/
theorem process_turn_outcome_advance (a : ArenaState) (h10 : ¬a.turn = 10)
    (hov : a.is_game_over = false) :
    (process_turn_outcome a).turn = a.turn + 1 ∧
    (process_turn_outcome a).is_game_over = false := by
  dsimp only [process_turn_outcome]
  rw [if_neg h10, hov]
  exact ⟨rfl, rfl⟩

/-- At turn 10, `process_turn_outcome` appends the series entries and hands
over to `handle_game_over`. -/
theorem process_turn_outcome_at_ten (a : ArenaState) (h : a.turn = 10) :
    process_turn_outcome a = handle_game_over
      { a with players :=
          a.players.map (fun p => { p with series := p.series ++ [p.score] }) } := by
  dsimp only [process_turn_outcome]
  rw [if_pos h]

/-- Running `n` turns from a running state whose counter can reach at most
10 keeps the game open and advances the counter by `n`. -/
theorem run_turns_running (d : Nat → String → ℚ) :
    ∀ (n : Nat) (a : ArenaState), a.is_game_over = false → a.turn + n ≤ 10 →
      (run_turns d n a).is_game_over = false ∧
      (run_turns d n a).turn = a.turn + n := by
  intro n
  induction n with
  | zero =>
    intro a h _
    exact ⟨h, rfl⟩
  | succ n ih =>
    intro a hov hle
    have hA1 : (apply_deltas (d a.turn) a).turn = a.turn := rfl
    have hA2 : (apply_deltas (d a.turn) a).is_game_over = a.is_game_over := rfl
    have h10 : ¬(apply_deltas (d a.turn) a).turn = 10 := by
      rw [hA1]
      omega
    have hb := process_turn_outcome_advance (apply_deltas (d a.turn) a) h10
      (by rw [hA2]; exact hov)
    have hrun : run_turns d (n + 1) a =
        run_turns d n (process_turn_outcome (apply_deltas (d a.turn) a)) := rfl
    rw [hrun]
    have hih := ih (process_turn_outcome (apply_deltas (d a.turn) a)) hb.2
      (by rw [hb.1, hA1]; omega)
    exact ⟨hih.1, by rw [hih.2, hb.1, hA1]; omega⟩

/-- Peeling the last turn instead of the first one. -/
theorem run_turns_succ (d : Nat → String → ℚ) :
    ∀ (n : Nat) (a : ArenaState),
      run_turns d (n + 1) a =
        process_turn_outcome
          (apply_deltas (d (run_turns d n a).turn) (run_turns d n a)) := by
  intro n
  induction n with
  | zero =>
    intro a
    rfl
  | succ n ih =>
    intro a
    have h1 : run_turns d (n + 1 + 1) a =
        run_turns d (n + 1) (process_turn_outcome (apply_deltas (d a.turn) a)) := rfl
    rw [h1, ih]
    rfl

/-- A flag-only rewrite of the players keeps the maximum score. -/
theorem foldl_max_score_map (f : ArenaPlayer → ArenaPlayer)
    (hf : ∀ p, (f p).score = p.score) :
    ∀ (t : List ArenaPlayer) (i : ℚ),
      (t.map f).foldl (fun m q => max m q.score) i =
        t.foldl (fun m q => max m q.score) i := by
  intro t
  induction t with
  | nil =>
    intro i
    rfl
  | cons p t ih =>
    intro i
    simp only [List.map_cons, List.foldl_cons, hf]
    exact ih _

/-- Flagging the winners does not change the winning score. -/
theorem winning_score_flag (ps : List ArenaPlayer) (w : ℚ) :
    winning_score (ps.map
      (fun p => if p.score = w then { p with is_winner := true } else p)) =
      winning_score ps := by
  have hf : ∀ p : ArenaPlayer,
      (if p.score = w then { p with is_winner := true } else p).score = p.score := by
    intro p
    split <;> rfl
  cases ps with
  | nil => rfl
  | cons p t =>
    simp only [List.map_cons, winning_score, hf]
    exact foldl_max_score_map _ hf t _

/-- `handle_game_over` closes the game and flags every player whose score
equals the maximum as a winner. -/
theorem handle_game_over_spec (a : ArenaState) :
    (handle_game_over a).is_game_over = true ∧
    ∀ p ∈ (handle_game_over a).players,
      p.score = winning_score (handle_game_over a).players →
      p.is_winner = true := by
  refine ⟨rfl, ?_⟩
  intro p hp hs
  have hps : (handle_game_over a).players = a.players.map
      (fun q => if q.score = winning_score a.players then
        { q with is_winner := true } else q) := rfl
  rw [hps] at hp hs
  rw [winning_score_flag] at hs
  obtain ⟨q, hq, rfl⟩ := List.mem_map.1 hp
  by_cases h : q.score = winning_score a.players
  · simp [h]
  · rw [if_neg h] at hs
    exact absurd hs h

/-- C9: from a fresh arena, for every completed turn before the 10th the
game-over flag stays false and the turn counter advances by one; after
exactly 10 completed turns the flag is true and every player whose
cumulative score equals the maximum among all players is flagged a winner
(so ties yield multiple winners).  The per-turn score deltas are arbitrary.
The source computes the maximum with `max(...)`, which raises on an empty
roster; the winner clause is stated over the players present. -/
theorem C9_game_termination (names : List String) (d : Nat → String → ℚ) :
    (∀ k : Nat, k < 10 →
      (run_turns d k (init_arena names)).is_game_over = false ∧
      (run_turns d k (init_arena names)).turn = k + 1) ∧
    (run_turns d 10 (init_arena names)).is_game_over = true ∧
    (∀ p ∈ (run_turns d 10 (init_arena names)).players,
      p.score = winning_score (run_turns d 10 (init_arena names)).players →
      p.is_winner = true) := by
  have hi1 : (init_arena names).turn = 1 := rfl
  have hi2 : (init_arena names).is_game_over = false := rfl
  constructor
  · intro k hk
    have h := run_turns_running d k (init_arena names) hi2 (by omega)
    exact ⟨h.1, by rw [h.2, hi1]; omega⟩
  · have h9 := run_turns_running d 9 (init_arena names) hi2 (by omega)
    rw [run_turns_succ d 9 (init_arena names)]
    revert h9
    generalize run_turns d 9 (init_arena names) = s
    intro h9
    have hten : (apply_deltas (d s.turn) s).turn = 10 := by
      show s.turn = 10
      rw [h9.2, hi1]
    rw [process_turn_outcome_at_ten _ hten]
    exact handle_game_over_spec _

/-- C9 witness: with two players and zero deltas every turn, after 3 turns
the game is open at turn 4, and after 10 turns it is over with the tied
players both flagged winners. -/
theorem C9_game_termination_witness :
    (run_turns (fun _ _ => 0) 3 (init_arena ["Alex", "Blake"])).is_game_over
      = false ∧
    (run_turns (fun _ _ => 0) 3 (init_arena ["Alex", "Blake"])).turn = 4 ∧
    ((run_turns (fun _ _ => 0) 10 (init_arena ["Alex", "Blake"])).players.map
      (fun p => p.is_winner)) = [true, true] := by
  have h3 := (C9_game_termination ["Alex", "Blake"] (fun _ _ => 0)).1 3
    (by decide)
  have hover := (C9_game_termination ["Alex", "Blake"] (fun _ _ => 0)).2.2
  have hplayers : (run_turns (fun _ _ => 0) 10
      (init_arena ["Alex", "Blake"])).players =
      [⟨"Alex", 0, true, [0, 0, 0, 0, 0, 0, 0, 0, 0, 0, 0]⟩,
        ⟨"Blake", 0, true, [0, 0, 0, 0, 0, 0, 0, 0, 0, 0, 0]⟩] := by
    simp [run_turns, process_turn_outcome, apply_deltas, handle_game_over,
      init_arena, winning_score]
  refine ⟨h3.1, h3.2, ?_⟩
  have hw1 := hover ⟨"Alex", 0, true, [0, 0, 0, 0, 0, 0, 0, 0, 0, 0, 0]⟩
    (by rw [hplayers]; exact List.mem_cons_self _ _)
    (by rw [hplayers]; simp [winning_score])
  rw [hplayers]
  simp

end KeynesianBeautyContest
